import Mathlib

/-!
# go-mastermind: transactional use-cases

A shallow embedding of the use-case layer (`usecase/customer_usecase_impl.go`,
`usecase/product_usecase_impl.go`), of the customer repository
(`repository/customer_repository_impl.go`) and of the response mappers
(`helper/model.go`), followed by the properties established about them.

Conventions of the embedding

* A Go call returning `(v, err)` is a Lean tuple whose last component is
  `Option Error` (`none` is the nil error).  Both components are kept, because Go
  assigns both even when the error is not nil.
* Whatever the use-cases call but do not define (the store handle, the clock, the
  identity generator, the password helpers, the repository behind its interface,
  the finaliser) is a parameter; nothing is assumed about it.
* Every use-case returns, next to its Go results, the trace of the calls it made,
  in order, each with the error that call returned.  `defer` is modelled by a
  stack of pending calls that is run when the function returns.
* `int32` values are integers in the range of the type; the conversions `int32(x)`
  and `int64(x)` are explicit.
-/

namespace Mastermind

/-! ## Basic values -/

/-- Go `error` value that is not nil. -/
structure Error where
  msg : String
deriving DecidableEq, Repr

/-- Transaction handle `*sql.Tx`, known by its identity. -/
structure Tx where
  handle : Nat
deriving DecidableEq, Repr

/-- Token `context.Context`; the use-cases only pass it on. -/
structure Context where
  token : Nat
deriving DecidableEq, Repr

/-- Identity `uuid.UUID`, a 16-byte array read as a number; the zero value is `uuid.Nil`. -/
structure UUID where
  val : Nat
deriving DecidableEq, Repr

instance : Inhabited UUID := ⟨⟨0⟩⟩

/-- Value of a Go field whose type is declared in a package outside the files at hand
(`IdSeller`, `Price`, `Quantity` of a product).  The code only copies such values; a
value is represented by its bit pattern, the zero value being the all-zero pattern. -/
structure Raw where
  bits : Nat
deriving DecidableEq, Repr

instance : Inhabited Raw := ⟨⟨0⟩⟩

/-- Go conversion `int32(x)` of an integer: the low 32 bits, read as two's complement. -/
def int32 (x : Int) : Int :=
  let low := x % 4294967296
  if low < 2147483648 then low else low - 4294967296

/-- Go conversion `int64(x)` of an integer: the low 64 bits, read as two's complement. -/
def int64 (x : Int) : Int :=
  let low := x % 18446744073709551616
  if low < 9223372036854775808 then low else low - 18446744073709551616

/-- Calendar time `time.Time`, known by its seconds and nanoseconds since the epoch. -/
structure Time where
  sec : Int
  nsec : Int
deriving DecidableEq, Repr

/-- The zero `time.Time` is January 1, year 1, 00:00:00 UTC. -/
instance : Inhabited Time := ⟨⟨-62135596800, 0⟩⟩

namespace time

/-- Library function `time.Unix(sec, nsec)`: nanoseconds outside `[0, 1e9)` are carried
into the seconds. -/
def Unix (sec nsec : Int) : Time :=
  ⟨sec + nsec / 1000000000, nsec % 1000000000⟩

end time

/-- Method `Time.Unix()`: seconds since the epoch. -/
def Time.Unix (t : Time) : Int := t.sec

/-! ## Entities, requests and responses

The packages `model/entity`, `model/web/request` and `model/web/response` are used by the
code at hand but declared elsewhere; each structure below has the fields the code
reads or writes. -/

namespace entity

/-- Type `entity.Customer`. -/
structure Customer where
  Id : UUID
  Email : String
  Name : String
  Password : String
  RegisteredAt : Int
  UpdatedAt : Int
deriving DecidableEq, Repr

instance : Inhabited Customer := ⟨⟨default, "", "", "", 0, 0⟩⟩

/-- Type `entity.Product`. -/
structure Product where
  Id : Int
  IdSeller : Raw
  Name : String
  Price : Raw
  Quantity : Raw
  CreatedAt : Int
  UpdatedAt : Int
deriving DecidableEq, Repr

instance : Inhabited Product := ⟨⟨0, default, "", default, default, 0, 0⟩⟩

end entity

namespace request

/-- Type `request.CustomerRegister`. -/
structure CustomerRegister where
  Email : String
  Name : String
  Password : String
deriving DecidableEq, Repr

/-- Type `request.CustomerUpdate`. -/
structure CustomerUpdate where
  Email : String
  Name : String
deriving DecidableEq, Repr

/-- Type `request.AddProduct`. -/
structure AddProduct where
  IdSeller : Raw
  Name : String
  Price : Raw
  Quantity : Raw
deriving DecidableEq, Repr

/-- Type `request.UpdateProduct`. -/
structure UpdateProduct where
  Id : Int
  Name : String
  Price : Raw
  Quantity : Raw
deriving DecidableEq, Repr

end request

namespace response

/-- Type `response.CustomerRegister`. -/
structure CustomerRegister where
  Email : String
  Name : String
  RegisteredAt : Time
deriving DecidableEq, Repr

instance : Inhabited CustomerRegister := ⟨⟨"", "", default⟩⟩

/-- Type `response.CustomerUpdate`. -/
structure CustomerUpdate where
  Email : String
  Name : String
  RegisteredAt : Time
  UpdatedAt : Time
deriving DecidableEq, Repr

instance : Inhabited CustomerUpdate := ⟨⟨"", "", default, default⟩⟩

/-- Type `response.AddProduct`. -/
structure AddProduct where
  Id : Int
  IdSeller : Raw
  Name : String
  Price : Raw
  Quantity : Raw
  CreatedAt : Time
deriving DecidableEq, Repr

instance : Inhabited AddProduct := ⟨⟨0, default, "", default, default, default⟩⟩

/-- Type `response.GetProduct`. -/
structure GetProduct where
  Id : Int
  Name : String
  Price : Raw
deriving DecidableEq, Repr

instance : Inhabited GetProduct := ⟨⟨0, "", default⟩⟩

/-- Type `response.FindById`. -/
structure FindById where
  Id : Int
  IdSeller : Raw
  Name : String
  Price : Raw
  Quantity : Raw
  CreatedAt : Time
  UpdatedAt : Time
deriving DecidableEq, Repr

instance : Inhabited FindById := ⟨⟨0, default, "", default, default, default, default⟩⟩

/-- Type `response.UpdateProduct`. -/
structure UpdateProduct where
  Id : Int
  Name : String
  Price : Raw
  Quantity : Raw
  CreatedAt : Time
  UpdatedAt : Time
deriving DecidableEq, Repr

instance : Inhabited UpdateProduct := ⟨⟨0, "", default, default, default, default⟩⟩

end response

/-! ## Mappers (`helper/model.go`) -/

namespace helper

/-- Mapper `ToResponseCustomerRegister`. -/
def ToResponseCustomerRegister (customer : entity.Customer) : response.CustomerRegister :=
  { Email := customer.Email
    Name := customer.Name
    RegisteredAt := time.Unix (int64 customer.RegisteredAt) 0 }

/-- Mapper `ToResponseCustomerUpdate`. -/
def ToResponseCustomerUpdate (customer : entity.Customer) : response.CustomerUpdate :=
  { Email := customer.Email
    Name := customer.Name
    RegisteredAt := time.Unix (int64 customer.RegisteredAt) 0
    UpdatedAt := time.Unix (int64 customer.UpdatedAt) 0 }

/-- Mapper `ToResponseAddProduct`. -/
def ToResponseAddProduct (product : entity.Product) : response.AddProduct :=
  { Id := product.Id
    IdSeller := product.IdSeller
    Name := product.Name
    Price := product.Price
    Quantity := product.Quantity
    CreatedAt := time.Unix (int64 product.CreatedAt) 0 }

/-- Mapper `ToResponseFindById`. -/
def ToResponseFindById (product : entity.Product) : response.FindById :=
  { Id := product.Id
    IdSeller := product.IdSeller
    Name := product.Name
    Price := product.Price
    Quantity := product.Quantity
    CreatedAt := time.Unix (int64 product.CreatedAt) 0
    UpdatedAt := time.Unix (int64 product.UpdatedAt) 0 }

/-- Mapper `ToResponseUpdateProduct`. -/
def ToResponseUpdateProduct (product : entity.Product) : response.UpdateProduct :=
  { Id := product.Id
    Name := product.Name
    Price := product.Price
    Quantity := product.Quantity
    CreatedAt := time.Unix (int64 product.CreatedAt) 0
    UpdatedAt := time.Unix (int64 product.UpdatedAt) 0 }

end helper

/-! ## The store driver (`database/sql`), as far as the repository uses it -/

namespace sql

/-- Argument bound to a statement placeholder. -/
inductive Arg where
  | uuid (u : UUID)
  | text (s : String)
  | int32 (n : Int)
deriving DecidableEq, Repr

/-- Cell of a result row, as the driver delivers it. -/
inductive Cell where
  | null
  | uuid (u : UUID)
  | int (n : Int)
  | text (s : String)
deriving DecidableEq, Repr

/-- One result row. -/
structure Row where
  cells : List Cell
deriving DecidableEq, Repr

/-- Cursor `*sql.Rows`: the rows that `Next` has not delivered yet. -/
structure Rows where
  pending : List Row
deriving DecidableEq, Repr

/-- Method `Rows.Next()`: there is a row to read. -/
def Rows.Next (rows : Rows) : Bool := !rows.pending.isEmpty

/-- Result `*sql.Row` of `QueryRowContext`: a deferred error or a cursor. -/
structure RowHandle where
  err : Option Error
  rows : Rows
deriving DecidableEq, Repr

/-- Sentinel `sql.ErrNoRows`. -/
def ErrNoRows : Error := ⟨"sql: no rows in result set"⟩

/-- What the repository needs of an open transaction: statement execution, queries and
the scanning of a row into typed destinations.  A scan receives the current content
of its destinations and returns their content afterwards, with its error. -/
structure Store where
  ExecContext : Tx → Context → String → List Arg → Option Error
  QueryContext : Tx → Context → String → List Arg → Rows × Option Error
  QueryRowContext : Tx → Context → String → List Arg → RowHandle
  ScanIdPassword : Row → UUID × String → (UUID × String) × Option Error
  ScanNameTimes : Row → String × Int × Int → (String × Int × Int) × Option Error

/-- Method `Row.Scan` of `*sql.Row`, destinations `(*string, *int32, *int32)`: the deferred
error first, then `ErrNoRows` when the cursor is empty, then the scan of the first row. -/
def RowHandle.ScanNameTimes (store : Store) (row : RowHandle) (dest : String × Int × Int) :
    (String × Int × Int) × Option Error :=
  match row.err with
  | some e => (dest, some e)
  | none =>
    match row.rows.pending with
    | [] => (dest, some ErrNoRows)
    | r :: _ => store.ScanNameTimes r dest

end sql

/-! ## Customer repository (`repository/customer_repository_impl.go`) -/

namespace repository

/-- Interface `repository.CustomerRepository`, as the use-case calls it. -/
structure CustomerRepository where
  RegisterCustomer : Context → Tx → entity.Customer → entity.Customer × Option Error
  LoginCustomer : Context → Tx → String → UUID × String × Option Error
  UpdateCustomer : Context → Tx → entity.Customer → entity.Customer × Option Error
  DeleteCustomer : Context → Tx → String → Int → Option Error

/-- Interface `repository.ProductRepository`, as the use-case calls it. -/
structure ProductRepository where
  AddProduct : Context → Tx → entity.Product → entity.Product × Option Error
  GetProduct : Context → Tx → List entity.Product × Option Error
  FindById : Context → Tx → Int → entity.Product × Option Error
  UpdateProduct : Context → Tx → entity.Product → entity.Product × Option Error
  DeleteProduct : Context → Tx → Int → Int → Option Error

namespace CustomerRepositoryImpl

/-- Statement of `RegisterCustomer`. -/
def registerQuery : String :=
  "INSERT INTO customers (id, email, name, password, registered_at) VALUES ($1, $2, $3, $4, $5);"

/-- Statement of `LoginCustomer`. -/
def loginQuery : String := "SELECT id, password FROM customers WHERE email=$1"

/-- First statement of `UpdateCustomer`. -/
def updateQuery : String := "UPDATE customers SET name=$1, updated_at=$2 WHERE email=$3"

/-- Second statement of `UpdateCustomer`. -/
def updateQueryResult : String :=
  "SELECT name, registered_at, updated_at FROM customers WHERE email=$1"

/-- Statement of `DeleteCustomer`. -/
def deleteQuery : String := "UPDATE customers SET deleted_at=$1 WHERE email=$2"

/-- Method `CustomerRepositoryImpl.RegisterCustomer`.  The returned customer has the four
fields copied from the request and the zero value elsewhere; the `log.Println` of it
changes no result and is left out. -/
def RegisterCustomer (store : sql.Store) (ctx : Context) (tx : Tx) (request : entity.Customer) :
    entity.Customer × Option Error :=
  let customer : entity.Customer := default
  let err := store.ExecContext tx ctx registerQuery
    [.uuid request.Id, .text request.Email, .text request.Name, .text request.Password,
      .int32 request.RegisteredAt]
  match err with
  | some e => (customer, some e)
  | none =>
    let customer : entity.Customer :=
      { (default : entity.Customer) with
        Email := request.Email
        Name := request.Name
        Password := request.Password
        RegisteredAt := request.RegisteredAt }
    (customer, none)

/-- Method `CustomerRepositoryImpl.LoginCustomer`.  `Next` is asked once; the scan writes
into the named results `id` and `passwordHashed`, which are returned whatever its
error.  The deferred `row.Close()` changes no result and is left out. -/
def LoginCustomer (store : sql.Store) (ctx : Context) (tx : Tx) (email : String) :
    UUID × String × Option Error :=
  let id : UUID := default
  let passwordHashed : String := ""
  let q := store.QueryContext tx ctx loginQuery [.text email]
  let row := q.1
  match q.2 with
  | some e => (id, passwordHashed, some e)
  | none =>
    match row.pending with
    | r :: _ =>
      let scanned := store.ScanIdPassword r (id, passwordHashed)
      let id := scanned.1.1
      let passwordHashed := scanned.1.2
      match scanned.2 with
      | some e => (id, passwordHashed, some e)
      | none => (id, passwordHashed, none)
    | [] => (id, passwordHashed, none)

/-- Method `CustomerRepositoryImpl.UpdateCustomer`.  The scan writes into three fields of
the named result `customer`; its `Email` is never assigned. -/
def UpdateCustomer (store : sql.Store) (ctx : Context) (tx : Tx) (request : entity.Customer) :
    entity.Customer × Option Error :=
  let customer : entity.Customer := default
  let err := store.ExecContext tx ctx updateQuery
    [.text request.Name, .int32 request.UpdatedAt, .text request.Email]
  match err with
  | some e => (customer, some e)
  | none =>
    let scanned := (store.QueryRowContext tx ctx updateQueryResult [.text request.Email]).ScanNameTimes
      store (customer.Name, customer.RegisteredAt, customer.UpdatedAt)
    let customer : entity.Customer :=
      { customer with
        Name := scanned.1.1
        RegisteredAt := scanned.1.2.1
        UpdatedAt := scanned.1.2.2 }
    match scanned.2 with
    | some e => (customer, some e)
    | none => (customer, none)

/-- Method `CustomerRepositoryImpl.DeleteCustomer`. -/
def DeleteCustomer (store : sql.Store) (ctx : Context) (tx : Tx) (email : String)
    (deleteTime : Int) : Option Error :=
  let err := store.ExecContext tx ctx deleteQuery [.int32 deleteTime, .text email]
  match err with
  | some e => some e
  | none => none

end CustomerRepositoryImpl

/-- Constructor `NewCustomerRepositoryImpl`: the implementation behind the interface, over
the store its transactions talk to. -/
def NewCustomerRepositoryImpl (store : sql.Store) : CustomerRepository :=
  { RegisterCustomer := CustomerRepositoryImpl.RegisterCustomer store
    LoginCustomer := CustomerRepositoryImpl.LoginCustomer store
    UpdateCustomer := CustomerRepositoryImpl.UpdateCustomer store
    DeleteCustomer := CustomerRepositoryImpl.DeleteCustomer store }

end repository

/-! ## Calls, traces and `defer` -/

/-- The calls a use-case makes, with their arguments. -/
inductive Callee where
  | Begin
  | CommitOrRollback (tx : Tx)
  | HashPassword (password : String)
  | CheckPasswordHash (passwordHashed password : String)
  | RepositoryRegisterCustomer (tx : Tx) (customer : entity.Customer)
  | RepositoryLoginCustomer (tx : Tx) (email : String)
  | RepositoryUpdateCustomer (tx : Tx) (customer : entity.Customer)
  | RepositoryDeleteCustomer (tx : Tx) (email : String) (deletedTime : Int)
  | RepositoryAddProduct (tx : Tx) (requestRepo : entity.Product)
  | RepositoryGetProduct (tx : Tx)
  | RepositoryFindById (tx : Tx) (id : Int)
  | RepositoryUpdateProduct (tx : Tx) (requestRepo : entity.Product)
  | RepositoryDeleteProduct (tx : Tx) (deleteTime : Int) (id : Int)
  | ToResponseCustomerRegister (customer : entity.Customer)
  | ToResponseCustomerUpdate (customer : entity.Customer)
  | ToResponseAddProduct (product : entity.Product)
  | ToResponseFindById (product : entity.Product)
  | ToResponseUpdateProduct (product : entity.Product)
deriving DecidableEq, Repr

/-- The call is the finaliser `helper.CommitOrRollback`. -/
def Callee.isFinaliser : Callee → Bool
  | .CommitOrRollback _ => true
  | _ => false

/-- The call is a mapper of `helper/model.go`. -/
def Callee.isMapper : Callee → Bool
  | .ToResponseCustomerRegister _ => true
  | .ToResponseCustomerUpdate _ => true
  | .ToResponseAddProduct _ => true
  | .ToResponseFindById _ => true
  | .ToResponseUpdateProduct _ => true
  | _ => false

/-- The call goes to the repository. -/
def Callee.isRepository : Callee → Bool
  | .RepositoryRegisterCustomer _ _ => true
  | .RepositoryLoginCustomer _ _ => true
  | .RepositoryUpdateCustomer _ _ => true
  | .RepositoryDeleteCustomer _ _ _ => true
  | .RepositoryAddProduct _ _ => true
  | .RepositoryGetProduct _ => true
  | .RepositoryFindById _ _ => true
  | .RepositoryUpdateProduct _ _ => true
  | .RepositoryDeleteProduct _ _ _ => true
  | _ => false

/-- The call is the hasher `helper.HashPassword`. -/
def Callee.isHasher : Callee → Bool
  | .HashPassword _ => true
  | _ => false

/-- The call is the verifier `helper.CheckPasswordHash`. -/
def Callee.isVerifier : Callee → Bool
  | .CheckPasswordHash _ _ => true
  | _ => false

/-- The timestamp a repository call carries, in the entity or as an argument of its
own: the field the use-case has just filled from the clock. -/
def Callee.timestamp : Callee → Option Int
  | .RepositoryRegisterCustomer _ customer => some customer.RegisteredAt
  | .RepositoryUpdateCustomer _ customer => some customer.UpdatedAt
  | .RepositoryDeleteCustomer _ _ deletedTime => some deletedTime
  | .RepositoryAddProduct _ requestRepo => some requestRepo.CreatedAt
  | .RepositoryUpdateProduct _ requestRepo => some requestRepo.UpdatedAt
  | .RepositoryDeleteProduct _ deleteTime _ => some deleteTime
  | _ => none

/-- One executed call: what was called and the error it returned. -/
structure Step where
  callee : Callee
  err : Option Error
deriving DecidableEq, Repr

/-- Activation of a Go function: the calls made so far and the stack of deferred calls,
the most recently deferred first. -/
structure Frame where
  trace : List Step
  deferred : List Callee
deriving Repr

/-- What a use-case leaves behind: its trace and its two named results. -/
structure Run (ρ : Type) where
  trace : List Step
  response : ρ
  err : Option Error
deriving Repr

/-- Entry of a function: nothing called, nothing deferred. -/
def Frame.enter : Frame := ⟨[], []⟩

/-- A call that has returned `err` is appended to the trace. -/
def Frame.call (fr : Frame) (c : Callee) (err : Option Error) : Frame :=
  { fr with trace := fr.trace ++ [⟨c, err⟩] }

/-- Statement `defer c`: the call is pushed, not run. -/
def Frame.defer (fr : Frame) (c : Callee) : Frame :=
  { fr with deferred := c :: fr.deferred }

/-- Statement `return` with the named results `response` and `err`: the deferred calls
run, last deferred first (none of them returns a value), and the results are handed
to the caller. -/
def Frame.ret {ρ : Type} (fr : Frame) (response : ρ) (err : Option Error) : Run ρ :=
  { trace := fr.trace ++ fr.deferred.map (fun c => ⟨c, none⟩)
    response := response
    err := err }

/-! ## What the use-cases call from outside -/

namespace sql

/-- Store handle `*sql.DB`: `Begin()` returns a transaction and an error. -/
structure DB where
  Begin : Tx × Option Error

end sql

/-- Package-level functions the use-cases call: the clock (`time.Now().Unix()`), the
identity generator (`uuid.New()`) and the two password helpers of package `helper`. -/
structure Env where
  Now : Int
  NewUUID : UUID
  HashPassword : String → String × Option Error
  CheckPasswordHash : String → String → Bool × Option Error

/-! ## Customer use-cases (`usecase/customer_usecase_impl.go`) -/

namespace usecase

/-- Type `CustomerUsecaseImpl`; the fields `Validate` and `Timeout` are read by no method. -/
structure CustomerUsecaseImpl where
  Repository : repository.CustomerRepository
  Database : sql.DB

namespace CustomerUsecaseImpl

/-- Method `CustomerUsecaseImpl.RegisterCustomer`. -/
def RegisterCustomer (usecase : CustomerUsecaseImpl) (env : Env) (ctx : Context)
    (request : request.CustomerRegister) : Run response.CustomerRegister :=
  let response : response.CustomerRegister := default
  let tx := usecase.Database.Begin.1
  let err := usecase.Database.Begin.2
  let fr := Frame.enter.call .Begin err
  match err with
  | some e => fr.ret response (some e)
  | none =>
    let fr := fr.defer (.CommitOrRollback tx)
    let password := (env.HashPassword request.Password).1
    let err := (env.HashPassword request.Password).2
    let fr := fr.call (.HashPassword request.Password) err
    match err with
    | some e => fr.ret response (some e)
    | none =>
      let customer : entity.Customer :=
        { (default : entity.Customer) with
          Id := env.NewUUID
          Email := request.Email
          Name := request.Name
          Password := password
          RegisteredAt := int32 env.Now }
      let customerResponse := (usecase.Repository.RegisterCustomer ctx tx customer).1
      let err := (usecase.Repository.RegisterCustomer ctx tx customer).2
      let fr := fr.call (.RepositoryRegisterCustomer tx customer) err
      match err with
      | some e => fr.ret response (some e)
      | none =>
        let response := helper.ToResponseCustomerRegister customerResponse
        let fr := fr.call (.ToResponseCustomerRegister customerResponse) none
        fr.ret response none

/-- Method `CustomerUsecaseImpl.LoginCustomer`; the response is the pair `(id, result)`. -/
def LoginCustomer (usecase : CustomerUsecaseImpl) (env : Env) (ctx : Context)
    (email password : String) : Run (UUID × Bool) :=
  let id : UUID := default
  let result : Bool := false
  let tx := usecase.Database.Begin.1
  let err := usecase.Database.Begin.2
  let fr := Frame.enter.call .Begin err
  match err with
  | some e => fr.ret (id, result) (some e)
  | none =>
    let fr := fr.defer (.CommitOrRollback tx)
    let id := (usecase.Repository.LoginCustomer ctx tx email).1
    let passwordHashed := (usecase.Repository.LoginCustomer ctx tx email).2.1
    let err := (usecase.Repository.LoginCustomer ctx tx email).2.2
    let fr := fr.call (.RepositoryLoginCustomer tx email) err
    match err with
    | some e => fr.ret (id, result) (some e)
    | none =>
      let result := (env.CheckPasswordHash passwordHashed password).1
      let err := (env.CheckPasswordHash passwordHashed password).2
      let fr := fr.call (.CheckPasswordHash passwordHashed password) err
      if !result then
        fr.ret (id, result) err
      else
        fr.ret (id, result) err

/-- Method `CustomerUsecaseImpl.UpdateCustomer`. -/
def UpdateCustomer (usecase : CustomerUsecaseImpl) (env : Env) (ctx : Context)
    (request : request.CustomerUpdate) : Run response.CustomerUpdate :=
  let response : response.CustomerUpdate := default
  let tx := usecase.Database.Begin.1
  let err := usecase.Database.Begin.2
  let fr := Frame.enter.call .Begin err
  match err with
  | some e => fr.ret response (some e)
  | none =>
    let fr := fr.defer (.CommitOrRollback tx)
    let customer : entity.Customer :=
      { (default : entity.Customer) with
        Name := request.Name
        Email := request.Email
        UpdatedAt := int32 env.Now }
    let customerResponse := (usecase.Repository.UpdateCustomer ctx tx customer).1
    let err := (usecase.Repository.UpdateCustomer ctx tx customer).2
    let fr := fr.call (.RepositoryUpdateCustomer tx customer) err
    match err with
    | some e => fr.ret response (some e)
    | none =>
      let response := helper.ToResponseCustomerUpdate customerResponse
      let fr := fr.call (.ToResponseCustomerUpdate customerResponse) none
      fr.ret response none

/-- Method `CustomerUsecaseImpl.DeleteCustomer`; it has no response beside the error. -/
def DeleteCustomer (usecase : CustomerUsecaseImpl) (env : Env) (ctx : Context)
    (email : String) : Run Unit :=
  let tx := usecase.Database.Begin.1
  let err := usecase.Database.Begin.2
  let fr := Frame.enter.call .Begin err
  match err with
  | some e => fr.ret () (some e)
  | none =>
    let fr := fr.defer (.CommitOrRollback tx)
    let deletedTime := int32 env.Now
    let err := usecase.Repository.DeleteCustomer ctx tx email deletedTime
    let fr := fr.call (.RepositoryDeleteCustomer tx email deletedTime) err
    match err with
    | some e => fr.ret () (some e)
    | none => fr.ret () err

end CustomerUsecaseImpl

/-! ## Product use-cases (`usecase/product_usecase_impl.go`) -/

/-- Type `ProductUsecaseImpl`; the fields `Validate` and `Timeout` are read by no method. -/
structure ProductUsecaseImpl where
  Repository : repository.ProductRepository
  Db : sql.DB

namespace ProductUsecaseImpl

/-- Method `ProductUsecaseImpl.AddProduct`. -/
def AddProduct (usecase : ProductUsecaseImpl) (env : Env) (ctx : Context)
    (request : request.AddProduct) : Run response.AddProduct :=
  let product : response.AddProduct := default
  let tx := usecase.Db.Begin.1
  let err := usecase.Db.Begin.2
  let fr := Frame.enter.call .Begin err
  match err with
  | some e => fr.ret product (some e)
  | none =>
    let fr := fr.defer (.CommitOrRollback tx)
    let requestRepo : entity.Product :=
      { (default : entity.Product) with
        IdSeller := request.IdSeller
        Name := request.Name
        Price := request.Price
        Quantity := request.Quantity
        CreatedAt := int32 env.Now }
    let response := (usecase.Repository.AddProduct ctx tx requestRepo).1
    let err := (usecase.Repository.AddProduct ctx tx requestRepo).2
    let fr := fr.call (.RepositoryAddProduct tx requestRepo) err
    match err with
    | some e => fr.ret product (some e)
    | none =>
      let product := helper.ToResponseAddProduct response
      let fr := fr.call (.ToResponseAddProduct response) none
      fr.ret product none

/-- Method `ProductUsecaseImpl.GetProduct`; the loop appends one element per product. -/
def GetProduct (usecase : ProductUsecaseImpl) (_env : Env) (ctx : Context) :
    Run (List response.GetProduct) :=
  let products : List response.GetProduct := []
  let tx := usecase.Db.Begin.1
  let err := usecase.Db.Begin.2
  let fr := Frame.enter.call .Begin err
  match err with
  | some e => fr.ret products (some e)
  | none =>
    let fr := fr.defer (.CommitOrRollback tx)
    let responses := (usecase.Repository.GetProduct ctx tx).1
    let err := (usecase.Repository.GetProduct ctx tx).2
    let fr := fr.call (.RepositoryGetProduct tx) err
    match err with
    | some e => fr.ret products (some e)
    | none =>
      let products := responses.foldl
        (fun products product =>
          let response : response.GetProduct :=
            { Id := product.Id
              Name := product.Name
              Price := product.Price }
          products ++ [response])
        products
      fr.ret products err

/-- Method `ProductUsecaseImpl.FindById`. -/
def FindById (usecase : ProductUsecaseImpl) (_env : Env) (ctx : Context) (id : Int) :
    Run response.FindById :=
  let product : response.FindById := default
  let tx := usecase.Db.Begin.1
  let err := usecase.Db.Begin.2
  let fr := Frame.enter.call .Begin err
  match err with
  | some e => fr.ret product (some e)
  | none =>
    let fr := fr.defer (.CommitOrRollback tx)
    let response := (usecase.Repository.FindById ctx tx id).1
    let err := (usecase.Repository.FindById ctx tx id).2
    let fr := fr.call (.RepositoryFindById tx id) err
    match err with
    | some e => fr.ret product (some e)
    | none =>
      let product := helper.ToResponseFindById response
      let fr := fr.call (.ToResponseFindById response) none
      fr.ret product none

/-- Method `ProductUsecaseImpl.UpdateProduct`. -/
def UpdateProduct (usecase : ProductUsecaseImpl) (env : Env) (ctx : Context)
    (request : request.UpdateProduct) : Run response.UpdateProduct :=
  let product : response.UpdateProduct := default
  let tx := usecase.Db.Begin.1
  let err := usecase.Db.Begin.2
  let fr := Frame.enter.call .Begin err
  match err with
  | some e => fr.ret product (some e)
  | none =>
    let fr := fr.defer (.CommitOrRollback tx)
    let requestRepo : entity.Product :=
      { (default : entity.Product) with
        Id := request.Id
        Name := request.Name
        Price := request.Price
        Quantity := request.Quantity
        UpdatedAt := int32 env.Now }
    let response := (usecase.Repository.UpdateProduct ctx tx requestRepo).1
    let err := (usecase.Repository.UpdateProduct ctx tx requestRepo).2
    let fr := fr.call (.RepositoryUpdateProduct tx requestRepo) err
    match err with
    | some e => fr.ret product (some e)
    | none =>
      let product := helper.ToResponseUpdateProduct response
      let fr := fr.call (.ToResponseUpdateProduct response) none
      fr.ret product none

/-- Method `ProductUsecaseImpl.DeleteProduct`; it has no response beside the error. -/
def DeleteProduct (usecase : ProductUsecaseImpl) (env : Env) (ctx : Context) (id : Int) :
    Run Unit :=
  let tx := usecase.Db.Begin.1
  let err := usecase.Db.Begin.2
  let fr := Frame.enter.call .Begin err
  match err with
  | some e => fr.ret () (some e)
  | none =>
    let fr := fr.defer (.CommitOrRollback tx)
    let deleteTime := int32 env.Now
    let err := usecase.Repository.DeleteProduct ctx tx deleteTime id
    let fr := fr.call (.RepositoryDeleteProduct tx deleteTime id) err
    match err with
    | some e => fr.ret () (some e)
    | none => fr.ret () err

end ProductUsecaseImpl

end usecase

/-! ## The nine operations, seen uniformly -/

/-- The use-case layer as its callers hold it: both use-cases and the package-level
functions they share. -/
structure App where
  Customer : usecase.CustomerUsecaseImpl
  Product : usecase.ProductUsecaseImpl
  env : Env

/-- One invocation of a use-case operation, with its arguments. -/
inductive Operation where
  | RegisterCustomer (request : request.CustomerRegister)
  | LoginCustomer (email password : String)
  | UpdateCustomer (request : request.CustomerUpdate)
  | DeleteCustomer (email : String)
  | AddProduct (request : request.AddProduct)
  | GetProduct
  | FindById (id : Int)
  | UpdateProduct (request : request.UpdateProduct)
  | DeleteProduct (id : Int)
deriving DecidableEq, Repr

/-- The results an operation returns beside its error. -/
inductive Response where
  | RegisterCustomer (response : response.CustomerRegister)
  | LoginCustomer (id : UUID) (result : Bool)
  | UpdateCustomer (response : response.CustomerUpdate)
  | DeleteCustomer
  | AddProduct (product : response.AddProduct)
  | GetProduct (products : List response.GetProduct)
  | FindById (product : response.FindById)
  | UpdateProduct (product : response.UpdateProduct)
  | DeleteProduct
deriving DecidableEq, Repr

/-- The results are relabelled; trace and error are kept. -/
def Run.relabel {ρ σ : Type} (f : ρ → σ) (r : Run ρ) : Run σ :=
  { trace := r.trace, response := f r.response, err := r.err }

/-- What `Begin()` returns on the store handle of the use-case the operation belongs to. -/
def Operation.Begin (app : App) : Operation → Tx × Option Error
  | .RegisterCustomer _ => app.Customer.Database.Begin
  | .LoginCustomer _ _ => app.Customer.Database.Begin
  | .UpdateCustomer _ => app.Customer.Database.Begin
  | .DeleteCustomer _ => app.Customer.Database.Begin
  | .AddProduct _ => app.Product.Db.Begin
  | .GetProduct => app.Product.Db.Begin
  | .FindById _ => app.Product.Db.Begin
  | .UpdateProduct _ => app.Product.Db.Begin
  | .DeleteProduct _ => app.Product.Db.Begin

/-- The zero value of the results of an operation. -/
def Operation.zero : Operation → Response
  | .RegisterCustomer _ => .RegisterCustomer default
  | .LoginCustomer _ _ => .LoginCustomer default false
  | .UpdateCustomer _ => .UpdateCustomer default
  | .DeleteCustomer _ => .DeleteCustomer
  | .AddProduct _ => .AddProduct default
  | .GetProduct => .GetProduct []
  | .FindById _ => .FindById default
  | .UpdateProduct _ => .UpdateProduct default
  | .DeleteProduct _ => .DeleteProduct

/-- The operation is invoked on the use-case it belongs to. -/
def Operation.run (app : App) (ctx : Context) : Operation → Run Response
  | .RegisterCustomer request =>
    (app.Customer.RegisterCustomer app.env ctx request).relabel .RegisterCustomer
  | .LoginCustomer email password =>
    (app.Customer.LoginCustomer app.env ctx email password).relabel
      (fun r => .LoginCustomer r.1 r.2)
  | .UpdateCustomer request =>
    (app.Customer.UpdateCustomer app.env ctx request).relabel .UpdateCustomer
  | .DeleteCustomer email =>
    (app.Customer.DeleteCustomer app.env ctx email).relabel (fun _ => .DeleteCustomer)
  | .AddProduct request =>
    (app.Product.AddProduct app.env ctx request).relabel .AddProduct
  | .GetProduct =>
    (app.Product.GetProduct app.env ctx).relabel .GetProduct
  | .FindById id =>
    (app.Product.FindById app.env ctx id).relabel .FindById
  | .UpdateProduct request =>
    (app.Product.UpdateProduct app.env ctx request).relabel .UpdateProduct
  | .DeleteProduct id =>
    (app.Product.DeleteProduct app.env ctx id).relabel (fun _ => .DeleteProduct)

/-! ## The finaliser

The body of `helper.CommitOrRollback` is not among the files at hand; its call sites are.
Every use-case hands it the transaction handle and nothing else: neither the error it
is about to return nor any other result of its steps.  What the finaliser can go by is
therefore the handle and the state the handle is in, and the only calls that receive the
handle, hence the only ones that can change that state, are the repository calls.  The
finaliser is a parameter: any function of the handle and of the repository calls made
before it, each with its arguments and the error it returned. -/

/-- How a finaliser call leaves its transaction. -/
inductive Fate where
  | committed
  | rolledBack
deriving DecidableEq, Repr

/-- The fates decided along a trace, `done` being the repository calls already made:
a repository call is added to `done`, a finaliser call decides the fate of its handle
from the handle and `done`, any other call (`Begin`, hasher, verifier, mapper) is
passed over. -/
def fatesFrom (finaliser : Tx → List Step → Fate) (done : List Step) :
    List Step → List (Tx × Fate)
  | [] => []
  | s :: rest =>
    match s.callee with
    | .CommitOrRollback tx => (tx, finaliser tx done) :: fatesFrom finaliser done rest
    | _ =>
      fatesFrom finaliser (if s.callee.isRepository then done ++ [s] else done) rest

/-- What the finaliser calls of a trace did, in order, when `helper.CommitOrRollback`
decides as `finaliser`: each transaction finalised, with its fate. -/
def fates (finaliser : Tx → List Step → Fate) (trace : List Step) : List (Tx × Fate) :=
  fatesFrom finaliser [] trace

/-- The finaliser commits on every run in which every step succeeds: whenever an
operation returns the nil error, its transaction has been committed, once. -/
def CommitsOnSuccess (finaliser : Tx → List Step → Fate) : Prop :=
  ∀ (app : App) (ctx : Context) (op : Operation),
    (op.run app ctx).err = none →
      fates finaliser (op.run app ctx).trace = [((op.Begin app).1, Fate.committed)]

/-- The operation reads the clock: its use-case evaluates `int32(time.Now().Unix())` and
hands the value to the repository. -/
def Operation.capturesClock : Operation → Bool
  | .RegisterCustomer _ => true
  | .UpdateCustomer _ => true
  | .DeleteCustomer _ => true
  | .AddProduct _ => true
  | .UpdateProduct _ => true
  | .DeleteProduct _ => true
  | _ => false

/-! ## Concrete instances

A store with one customer, `a@x.com`, and the collaborators around it; they are the
inputs at which the properties below are evaluated. -/

namespace Fixture

/-- A context token. -/
def ctx : Context := ⟨0⟩

/-- The transaction handle that `Begin` hands out. -/
def tx : Tx := ⟨1⟩

/-- Error of the verifier on a hash that is too short to be one. -/
def errHashTooShort : Error := ⟨"crypto/bcrypt: hashedSecret too short to be a bcrypted password"⟩

/-- Error of the verifier on a stored hash that is not well formed. -/
def errHashMalformed : Error := ⟨"crypto/bcrypt: hash is not well formed"⟩

/-- Error of the driver when the connection is gone. -/
def errBadConn : Error := ⟨"driver: bad connection"⟩

/-- Error of `Begin` when the store is closed. -/
def errClosed : Error := ⟨"sql: database is closed"⟩

/-- Error of a scan whose row does not fit the destinations. -/
def errScan : Error := ⟨"sql: Scan error"⟩

/-- Clock at 1700000000, a fixed new identity, a hasher that never fails, and a verifier
that rejects the empty hash and the hash `corrupt` with an error. -/
def env : Env :=
  { Now := 1700000000
    NewUUID := ⟨42⟩
    HashPassword := fun password => ("$2a$" ++ password, none)
    CheckPasswordHash := fun passwordHashed password =>
      if passwordHashed = "" then (false, some errHashTooShort)
      else if passwordHashed = "corrupt" then (false, some errHashMalformed)
      else (decide (passwordHashed = "$2a$" ++ password), none) }

/-- The same collaborators, the clock being at `now`. -/
def envAt (now : Int) : Env := { env with Now := now }

/-- A scan into `(id, passwordHashed)` that accepts an identity cell followed by a text
cell. -/
def scanIdPassword (r : sql.Row) (dest : UUID × String) : (UUID × String) × Option Error :=
  match r.cells with
  | [.uuid u, .text h] => ((u, h), none)
  | [.uuid u, _] => ((u, dest.2), some errScan)
  | _ => (dest, some errScan)

/-- A scan into `(name, registeredAt, updatedAt)` that accepts a text cell followed by
two integer cells. -/
def scanNameTimes (r : sql.Row) (dest : String × Int × Int) :
    (String × Int × Int) × Option Error :=
  match r.cells with
  | [.text n, .int a, .int b] => ((n, a, b), none)
  | _ => (dest, some errScan)

/-- A store in which every statement succeeds, the customer `a@x.com` has identity 7 and
the hash of `secret123`, the customer `b@x.com` has identity 8 and the hash `corrupt`,
and any other email has no row. -/
def store : sql.Store :=
  { ExecContext := fun _ _ _ _ => none
    QueryContext := fun _ _ _ args =>
      if args = [.text "a@x.com"] then
        (⟨[⟨[.uuid ⟨7⟩, .text "$2a$secret123"]⟩]⟩, none)
      else if args = [.text "b@x.com"] then
        (⟨[⟨[.uuid ⟨8⟩, .text "corrupt"]⟩]⟩, none)
      else (⟨[]⟩, none)
    QueryRowContext := fun _ _ _ args =>
      if args = [.text "a@x.com"] then
        ⟨none, ⟨[⟨[.text "A", .int 1600000000, .int 1700000000]⟩]⟩⟩
      else ⟨none, ⟨[]⟩⟩
    ScanIdPassword := scanIdPassword
    ScanNameTimes := scanNameTimes }

/-- A store whose connection is gone: every statement and query fails. -/
def brokenStore : sql.Store :=
  { store with
    ExecContext := fun _ _ _ _ => some errBadConn
    QueryContext := fun _ _ _ _ => (⟨[]⟩, some errBadConn)
    QueryRowContext := fun _ _ _ _ => ⟨some errBadConn, ⟨[]⟩⟩ }

/-- Two products. -/
def products : List entity.Product :=
  [ { Id := 1, IdSeller := ⟨5⟩, Name := "pen", Price := ⟨1999⟩, Quantity := ⟨3⟩,
      CreatedAt := 1600000000, UpdatedAt := 0 },
    { Id := 2, IdSeller := ⟨5⟩, Name := "ink", Price := ⟨500⟩, Quantity := ⟨10⟩,
      CreatedAt := 1600000001, UpdatedAt := 1600000002 } ]

/-- A product repository that succeeds: `AddProduct` and `UpdateProduct` hand back the
entity they were given under the id 1, `GetProduct` returns `products`. -/
def productRepository : repository.ProductRepository :=
  { AddProduct := fun _ _ product => ({ product with Id := 1 }, none)
    GetProduct := fun _ _ => (products, none)
    FindById := fun _ _ id => ({ (default : entity.Product) with Id := id }, none)
    UpdateProduct := fun _ _ product => ({ product with Id := 1 }, none)
    DeleteProduct := fun _ _ _ _ => none }

/-- The customer use-case over `store`, `Begin` succeeding. -/
def customerUsecase : usecase.CustomerUsecaseImpl :=
  { Repository := repository.NewCustomerRepositoryImpl store
    Database := ⟨(tx, none)⟩ }

/-- The product use-case over `productRepository`, `Begin` succeeding. -/
def productUsecase : usecase.ProductUsecaseImpl :=
  { Repository := productRepository
    Db := ⟨(tx, none)⟩ }

/-- Everything works. -/
def app : App := { Customer := customerUsecase, Product := productUsecase, env := env }

/-- The connection is lost after `Begin`: the customer repository fails. -/
def appBroken : App :=
  { app with
    Customer :=
      { Repository := repository.NewCustomerRepositoryImpl brokenStore
        Database := ⟨(tx, none)⟩ } }

/-- The store is closed: `Begin` fails. -/
def appClosed : App :=
  { app with
    Customer := { customerUsecase with Database := ⟨(tx, some errClosed)⟩ }
    Product := { productUsecase with Db := ⟨(tx, some errClosed)⟩ } }

/-- A product repository whose `AddProduct` hands back the id the store assigned and
nothing else of the row, as a statement returning only the new id would. -/
def idOnlyProductRepository : repository.ProductRepository :=
  { productRepository with
    AddProduct := fun _ _ _ => ({ (default : entity.Product) with Id := 1 }, none) }

/-- The product use-case over `idOnlyProductRepository`, `Begin` succeeding. -/
def idOnlyProductUsecase : usecase.ProductUsecaseImpl :=
  { Repository := idOnlyProductRepository
    Db := ⟨(tx, none)⟩ }

/-- A finaliser that goes by the state of the transaction: it rolls back when one of the
repository calls made on it returned an error, and commits otherwise. -/
def finaliser (_tx : Tx) (done : List Step) : Fate :=
  if done.all (fun s => s.err.isNone) then Fate.committed else Fate.rolledBack

/-- The verifier of `env` replaced by one that answers `(false, nil)` to everything. -/
def lenient (env : Env) : Env :=
  { env with CheckPasswordHash := fun _ _ => (false, none) }

end Fixture

/-! ## Properties -/

open usecase usecase.CustomerUsecaseImpl usecase.ProductUsecaseImpl

/-! ### Arithmetic of the conversions -/

/-- The conversion `int32` lands in the range of the type. -/
theorem int32_range (x : Int) : -2147483648 ≤ int32 x ∧ int32 x < 2147483648 := by
  unfold int32
  simp only
  split <;> omega

/-- The conversion `int32` changes its argument by a multiple of `2^32`. -/
theorem int32_congr (x : Int) : (x - int32 x) % 4294967296 = 0 := by
  unfold int32
  simp only
  split <;> omega

/-- The conversion `int32` keeps exactly the integers in the range of the type. -/
theorem int32_eq_self_iff (x : Int) :
    int32 x = x ↔ -2147483648 ≤ x ∧ x < 2147483648 := by
  unfold int32
  simp only
  split <;> omega

/-- Widening an `int32` value to `int64` keeps it. -/
theorem int64_of_int32 (x : Int) : int64 (int32 x) = int32 x := by
  have h := int32_range x
  unfold int64
  simp only
  split <;> omega

/-- Reading back the seconds of `time.Unix(sec, 0)`. -/
theorem unix_of_time_unix (sec : Int) : (time.Unix sec 0).Unix = sec := by
  simp [time.Unix, Time.Unix]

/-! ### Shape of a trace -/

/-- The trace of a run whose `Begin` succeeded: `Begin`, then calls none of which is the
finaliser, then the finaliser on the handle `Begin` returned. -/
theorem run_trace_shape (app : App) (ctx : Context) (op : Operation)
    (hb : (op.Begin app).2 = none) :
    (op.run app ctx).trace
        = ⟨.Begin, none⟩ :: (op.run app ctx).trace.tail.dropLast
            ++ [⟨.CommitOrRollback (op.Begin app).1, none⟩]
      ∧ ∀ s ∈ (op.run app ctx).trace.tail.dropLast,
          s.callee.isFinaliser = false ∧ s.callee ≠ .Begin := by
  constructor <;>
  cases op <;>
    simp only [Operation.Begin] at hb ⊢ <;>
    simp only [Operation.run, Run.relabel, RegisterCustomer, LoginCustomer,
      UpdateCustomer, DeleteCustomer, AddProduct, GetProduct, FindById, UpdateProduct,
      DeleteProduct, hb, Frame.ret, Frame.call, Frame.enter, Frame.defer] <;>
    (repeat' split) <;>
    simp [Callee.isFinaliser]

/-- A run that returns the nil error has begun its transaction. -/
theorem run_err_none_begin (app : App) (ctx : Context) (op : Operation)
    (h : (op.run app ctx).err = none) : (op.Begin app).2 = none := by
  cases hb : (op.Begin app).2 with
  | none => rfl
  | some e =>
    exfalso
    revert h
    cases op <;>
    simp only [Operation.Begin] at hb <;>
    simp [Operation.run, Run.relabel, RegisterCustomer, LoginCustomer,
      UpdateCustomer, DeleteCustomer, AddProduct, GetProduct, FindById, UpdateProduct,
      DeleteProduct, hb, Frame.ret, Frame.call, Frame.enter, Frame.defer]

/-- Once `Begin` has succeeded, exactly the transaction it returned is finalised, once,
and its fate is what the finaliser decides from the handle and the repository calls of
the run. -/
theorem fates_run (finaliser : Tx → List Step → Fate) (app : App) (ctx : Context)
    (op : Operation) (hb : (op.Begin app).2 = none) :
    fates finaliser (op.run app ctx).trace
      = [((op.Begin app).1,
          finaliser (op.Begin app).1
            ((op.run app ctx).trace.filter (fun s => s.callee.isRepository)))] := by
  cases op <;>
    simp only [Operation.Begin] at hb ⊢ <;>
    simp only [Operation.run, Run.relabel, RegisterCustomer, LoginCustomer,
      UpdateCustomer, DeleteCustomer, AddProduct, GetProduct, FindById, UpdateProduct,
      DeleteProduct, hb, Frame.ret, Frame.call, Frame.enter, Frame.defer] <;>
    (repeat' split) <;>
    simp [fates, fatesFrom, Callee.isRepository]

/-- Every operation whose `Begin` succeeds (and, in `RegisterCustomer`, whose hashing
succeeds) calls the repository exactly once. -/
theorem run_calls_repository_once (app : App) (ctx : Context) (op : Operation)
    (hb : (op.Begin app).2 = none)
    (hh : ∀ request, op = .RegisterCustomer request →
      (app.env.HashPassword request.Password).2 = none) :
    ∃ s, (op.run app ctx).trace.filter (fun s => s.callee.isRepository) = [s] := by
  cases op with
  | RegisterCustomer request =>
    have h1 := hh request rfl
    simp only [Operation.Begin] at hb
    simp only [Operation.run, Run.relabel, RegisterCustomer, hb, h1, Frame.ret,
      Frame.call, Frame.enter, Frame.defer]
    (repeat' split) <;> simp [Callee.isRepository]
  | _ =>
    simp only [Operation.Begin] at hb
    simp only [Operation.run, Run.relabel, LoginCustomer, UpdateCustomer, DeleteCustomer,
      AddProduct, GetProduct, FindById, UpdateProduct, DeleteProduct, hb, Frame.ret,
      Frame.call, Frame.enter, Frame.defer]
    (repeat' split) <;> simp [Callee.isRepository]

/-- A run that returns the nil error made no repository call that returned an error. -/
theorem run_err_none_repository (app : App) (ctx : Context) (op : Operation)
    (h : (op.run app ctx).err = none) :
    ((op.run app ctx).trace.filter (fun s => s.callee.isRepository)).all
      (fun s => s.err.isNone) = true := by
  revert h
  cases op <;>
    simp only [Operation.run, Run.relabel, RegisterCustomer, LoginCustomer,
      UpdateCustomer, DeleteCustomer, AddProduct, GetProduct, FindById, UpdateProduct,
      DeleteProduct, Frame.ret, Frame.call, Frame.enter, Frame.defer] <;>
    (repeat' split) <;>
    simp_all [Callee.isRepository]

/-- The finaliser that goes by the state of the transaction commits on success. -/
theorem fixture_finaliser_commitsOnSuccess : CommitsOnSuccess Fixture.finaliser := by
  intro app ctx op h
  rw [fates_run _ app ctx op (run_err_none_begin app ctx op h)]
  simp [Fixture.finaliser, run_err_none_repository app ctx op h]

/-- A login whose repository call succeeds leaves the transaction in the same state
whatever the verifier answers; so a finaliser that commits on success commits it also
when the verifier returns an error. -/
theorem verifier_failure_committed (finaliser : Tx → List Step → Fate)
    (hfin : CommitsOnSuccess finaliser) (app : App) (ctx : Context) (email password : String)
    (hb : app.Customer.Database.Begin.2 = none)
    (hr : (app.Customer.Repository.LoginCustomer ctx app.Customer.Database.Begin.1 email).2.2
      = none) :
    fates finaliser (Operation.run app ctx (.LoginCustomer email password)).trace
      = [(app.Customer.Database.Begin.1, Fate.committed)] := by
  have hsame : (Operation.run app ctx (.LoginCustomer email password)).trace.filter
        (fun s => s.callee.isRepository)
      = (Operation.run { app with env := Fixture.lenient app.env } ctx
          (.LoginCustomer email password)).trace.filter (fun s => s.callee.isRepository) := by
    simp [Operation.run, Run.relabel, LoginCustomer, hb, hr, Frame.ret, Frame.call,
      Frame.enter, Frame.defer, Callee.isRepository, Fixture.lenient]
  have hok : (Operation.run { app with env := Fixture.lenient app.env } ctx
      (.LoginCustomer email password)).err = none := by
    simp [Operation.run, Run.relabel, LoginCustomer, hb, hr, Frame.ret, Frame.call,
      Frame.enter, Frame.defer, Fixture.lenient]
  have h := hfin { app with env := Fixture.lenient app.env } ctx
    (.LoginCustomer email password) hok
  rw [fates_run finaliser _ ctx _ (by simpa [Operation.Begin] using hb)] at h
  rw [fates_run finaliser app ctx _ (by simpa [Operation.Begin] using hb), hsame]
  simpa [Operation.Begin] using h

/-- The loop of `GetProduct`: appending one mapped element per step is a map. -/
theorem foldl_append_singleton {α β : Type} (f : α → β) (l : List α) (acc : List β) :
    l.foldl (fun acc a => acc ++ [f a]) acc = acc ++ l.map f := by
  induction l generalizing acc with
  | nil => simp
  | cons a l ih => simp [ih]

/-! ### The claims -/

set_option maxHeartbeats 1000000

/-- Claim C1 (as stated, refuted).  The customer `b@x.com` exists and its stored hash
makes the verifier return an error: `Begin` and the repository call succeed, the
verification fails, `LoginCustomer` returns that error, and the transaction is
committed by a finaliser that commits on success and rolls back whenever a repository
call has failed.  No finaliser that commits on success rolls this transaction back:
it reaches the finaliser in the state in which a successful login leaves it. -/
theorem rollback_on_failure_counterexample :
    (Operation.Begin Fixture.app (.LoginCustomer "b@x.com" "secret123")).2 = none
    ∧ (⟨.CheckPasswordHash "corrupt" "secret123", some Fixture.errHashMalformed⟩ : Step)
        ∈ (Operation.run Fixture.app Fixture.ctx (.LoginCustomer "b@x.com" "secret123")).trace
    ∧ (Operation.run Fixture.app Fixture.ctx (.LoginCustomer "b@x.com" "secret123")).err
        = some Fixture.errHashMalformed
    ∧ fates Fixture.finaliser
        (Operation.run Fixture.app Fixture.ctx (.LoginCustomer "b@x.com" "secret123")).trace
        = [(Fixture.tx, Fate.committed)]
    ∧ CommitsOnSuccess Fixture.finaliser
    ∧ ¬ ∃ finaliser : Tx → List Step → Fate,
        CommitsOnSuccess finaliser
        ∧ (Fixture.tx, Fate.rolledBack) ∈ fates finaliser
            (Operation.run Fixture.app Fixture.ctx
              (.LoginCustomer "b@x.com" "secret123")).trace := by
  refine ⟨by decide, by decide, by decide, by decide, fixture_finaliser_commitsOnSuccess, ?_⟩
  rintro ⟨finaliser, hfin, hmem⟩
  rw [verifier_failure_committed finaliser hfin Fixture.app Fixture.ctx "b@x.com" "secret123"
    rfl (by decide)] at hmem
  simp [Fixture.app, Fixture.customerUsecase] at hmem

/-- Claim C1 (amended).  In every operation and every run in which `Begin` succeeds and a
later call `s` returns the error `e`, the use-case returns `e` and its transaction is
finalised exactly once, by a call of `helper.CommitOrRollback` that is handed the handle
and not the error: the fate is what the finaliser decides from the handle and the
repository calls made on it.  When the failing call is the verification, a finaliser
that commits on success commits the transaction and does not roll it back. -/
theorem failed_run_fate (finaliser : Tx → List Step → Fate) (app : App) (ctx : Context)
    (op : Operation) (s : Step) (e : Error)
    (hb : (op.Begin app).2 = none) (hs : s ∈ (op.run app ctx).trace)
    (he : s.err = some e) :
    (op.run app ctx).err = some e
    ∧ fates finaliser (op.run app ctx).trace
        = [((op.Begin app).1,
            finaliser (op.Begin app).1
              ((op.run app ctx).trace.filter (fun s => s.callee.isRepository)))]
    ∧ (CommitsOnSuccess finaliser → s.callee.isVerifier = true →
        fates finaliser (op.run app ctx).trace = [((op.Begin app).1, Fate.committed)]
        ∧ ∀ tx, (tx, Fate.rolledBack) ∉ fates finaliser (op.run app ctx).trace) := by
  refine ⟨?_, fates_run finaliser app ctx op hb, ?_⟩
  · cases op <;>
      simp only [Operation.Begin] at hb ⊢ <;>
      simp only [Operation.run, Run.relabel, RegisterCustomer, LoginCustomer,
        UpdateCustomer, DeleteCustomer, AddProduct, GetProduct, FindById, UpdateProduct,
        DeleteProduct, hb, Frame.ret, Frame.call, Frame.enter, Frame.defer] at hs ⊢ <;>
      (repeat' split at hs) <;>
      simp only [List.nil_append, List.map_cons, List.map_nil, List.cons_append,
        List.mem_cons, List.mem_singleton, List.not_mem_nil, or_false] at hs <;>
      (try casesm* _ ∨ _) <;>
      subst_vars <;>
      simp_all
  · intro hfin hv
    have hc : fates finaliser (op.run app ctx).trace
        = [((op.Begin app).1, Fate.committed)] := by
      cases op with
      | LoginCustomer email password =>
        simp only [Operation.Begin] at hb
        have hr : (app.Customer.Repository.LoginCustomer ctx app.Customer.Database.Begin.1
            email).2.2 = none := by
          cases hrr : (app.Customer.Repository.LoginCustomer ctx
              app.Customer.Database.Begin.1 email).2.2 with
          | none => rfl
          | some e' =>
            exfalso
            simp only [Operation.run, Run.relabel, LoginCustomer, hb, hrr, Frame.ret,
              Frame.call, Frame.enter, Frame.defer] at hs
            simp only [List.nil_append, List.map_cons, List.map_nil, List.cons_append,
              List.mem_cons, List.mem_singleton, List.not_mem_nil, or_false] at hs
            rcases hs with rfl | rfl | rfl <;> simp [Callee.isVerifier] at hv
        exact verifier_failure_committed finaliser hfin app ctx email password hb hr
      | _ =>
        exfalso
        simp only [Operation.Begin] at hb
        simp only [Operation.run, Run.relabel, RegisterCustomer,
          UpdateCustomer, DeleteCustomer, AddProduct, GetProduct, FindById, UpdateProduct,
          DeleteProduct, hb, Frame.ret, Frame.call, Frame.enter, Frame.defer] at hs
        (repeat' split at hs) <;>
        simp only [List.nil_append, List.map_cons, List.map_nil, List.cons_append,
          List.mem_cons, List.mem_singleton, List.not_mem_nil, or_false] at hs <;>
        (try casesm* _ ∨ _) <;>
        subst_vars <;>
        simp_all [Callee.isVerifier]
    refine ⟨hc, ?_⟩
    rw [hc]
    simp

/-- Claim C1 (amended), evaluated: the login of `b@x.com`, whose verification fails, is
committed by the finaliser that goes by the state of the transaction; the same
finaliser rolls back `DeleteCustomer` when the connection is lost. -/
theorem failed_run_fate_witness :
    (Operation.Begin Fixture.app (.LoginCustomer "b@x.com" "secret123")).2 = none
    ∧ (⟨.CheckPasswordHash "corrupt" "secret123", some Fixture.errHashMalformed⟩ : Step)
        ∈ (Operation.run Fixture.app Fixture.ctx (.LoginCustomer "b@x.com" "secret123")).trace
    ∧ fates Fixture.finaliser
        (Operation.run Fixture.app Fixture.ctx (.LoginCustomer "b@x.com" "secret123")).trace
        = [(Fixture.tx, Fate.committed)]
    ∧ fates Fixture.finaliser
        (Operation.run Fixture.appBroken Fixture.ctx (.DeleteCustomer "a@x.com")).trace
        = [(Fixture.tx, Fate.rolledBack)] :=
  have hs : (⟨.CheckPasswordHash "corrupt" "secret123", some Fixture.errHashMalformed⟩ : Step)
      ∈ (Operation.run Fixture.app Fixture.ctx
          (.LoginCustomer "b@x.com" "secret123")).trace := by
    decide
  have h := failed_run_fate Fixture.finaliser Fixture.app Fixture.ctx
    (.LoginCustomer "b@x.com" "secret123") _ Fixture.errHashMalformed rfl hs rfl
  ⟨rfl, hs, (h.2.2 fixture_finaliser_commitsOnSuccess rfl).1, by decide⟩

/-- Claim C2 (as stated, refuted).  The email `nobody@x.com` has no row, so the
repository reports the zero id, the empty hash and the nil error; the use-case then
calls the verifier on the empty hash, and the error the verifier raises for it is
what the caller receives. -/
theorem login_absent_customer_counterexample :
    Fixture.customerUsecase.Database.Begin = (Fixture.tx, none)
    ∧ Fixture.customerUsecase.Repository.LoginCustomer Fixture.ctx Fixture.tx "nobody@x.com"
        = (default, "", none)
    ∧ (Fixture.customerUsecase.LoginCustomer Fixture.env Fixture.ctx "nobody@x.com"
        "secret123").err = some Fixture.errHashTooShort
    ∧ (⟨.CheckPasswordHash "" "secret123", some Fixture.errHashTooShort⟩ : Step)
        ∈ (Fixture.customerUsecase.LoginCustomer Fixture.env Fixture.ctx "nobody@x.com"
            "secret123").trace := by
  decide

/-- Claim C2 (amended).  When `Begin` succeeds and the repository reports no matching row
(zero id, empty hash, nil error), `LoginCustomer` calls the verifier on the empty hash
and the supplied password, finalises, and returns the zero id with exactly the result
and the error of the verifier; so it returns `result = false` with the nil error exactly
when the verifier answers `(false, nil)` for the empty hash. -/
theorem login_absent_customer_delegates_to_verifier (usecase : CustomerUsecaseImpl)
    (env : Env) (ctx : Context) (email password : String)
    (hb : usecase.Database.Begin.2 = none)
    (hr : usecase.Repository.LoginCustomer ctx usecase.Database.Begin.1 email
      = (default, "", none)) :
    usecase.LoginCustomer env ctx email password
      = { trace :=
            [⟨.Begin, none⟩,
              ⟨.RepositoryLoginCustomer usecase.Database.Begin.1 email, none⟩,
              ⟨.CheckPasswordHash "" password, (env.CheckPasswordHash "" password).2⟩,
              ⟨.CommitOrRollback usecase.Database.Begin.1, none⟩]
          response := (default, (env.CheckPasswordHash "" password).1)
          err := (env.CheckPasswordHash "" password).2 }
    ∧ (((usecase.LoginCustomer env ctx email password).response.2 = false
          ∧ (usecase.LoginCustomer env ctx email password).err = none)
        ↔ env.CheckPasswordHash "" password = (false, none)) := by
  have h : usecase.LoginCustomer env ctx email password
      = { trace :=
            [⟨.Begin, none⟩,
              ⟨.RepositoryLoginCustomer usecase.Database.Begin.1 email, none⟩,
              ⟨.CheckPasswordHash "" password, (env.CheckPasswordHash "" password).2⟩,
              ⟨.CommitOrRollback usecase.Database.Begin.1, none⟩]
          response := (default, (env.CheckPasswordHash "" password).1)
          err := (env.CheckPasswordHash "" password).2 } := by
    simp [LoginCustomer, hb, hr, Frame.ret, Frame.call, Frame.enter, Frame.defer]
  refine ⟨h, ?_⟩
  rw [h]
  simp [Prod.ext_iff]

/-- Claim C2 (amended), evaluated at the email `nobody@x.com`. -/
theorem login_absent_customer_delegates_to_verifier_witness :
    Fixture.customerUsecase.Database.Begin.2 = none
    ∧ Fixture.customerUsecase.Repository.LoginCustomer Fixture.ctx
        Fixture.customerUsecase.Database.Begin.1 "nobody@x.com" = (default, "", none)
    ∧ (Fixture.customerUsecase.LoginCustomer Fixture.env Fixture.ctx "nobody@x.com"
        "secret123").response = (default, false) :=
  ⟨rfl, rfl,
    by rw [(login_absent_customer_delegates_to_verifier Fixture.customerUsecase Fixture.env
      Fixture.ctx "nobody@x.com" "secret123" rfl rfl).1]; rfl⟩

/-- Claim C3 (as stated, refuted).  The customer `b@x.com` has the identity 8 and a
stored hash the verifier rejects with an error; `LoginCustomer` returns that error
together with the identity 8, which is not the zero-value response. -/
theorem login_failure_keeps_id_counterexample :
    (Operation.Begin Fixture.app (.LoginCustomer "b@x.com" "secret123")).2 = none
    ∧ (⟨.CheckPasswordHash "corrupt" "secret123", some Fixture.errHashMalformed⟩ : Step)
        ∈ (Operation.run Fixture.app Fixture.ctx (.LoginCustomer "b@x.com" "secret123")).trace
    ∧ (Operation.run Fixture.app Fixture.ctx (.LoginCustomer "b@x.com" "secret123")).err
        = some Fixture.errHashMalformed
    ∧ (Operation.run Fixture.app Fixture.ctx (.LoginCustomer "b@x.com" "secret123")).response
        = .LoginCustomer ⟨8⟩ false
    ∧ (Operation.run Fixture.app Fixture.ctx (.LoginCustomer "b@x.com" "secret123")).response
        ≠ Operation.zero (.LoginCustomer "b@x.com" "secret123") := by
  decide

/-- Claim C3 (amended).  In every operation, if `Begin` succeeds and a later call `s`
returns the error `e`, then the use-case returns exactly `e`; `s` is its last call
before the finaliser and every call before `s` returned the nil error; no mapper is
applied; after a hasher failure the repository is not called and after a repository
failure the verifier is not called; the response is the zero value in every operation
but `LoginCustomer`, which returns the id the repository handed back, with the result
`false` after a repository failure and the result of the verifier after a verifier
failure. -/
theorem failure_short_circuits (app : App) (ctx : Context) (op : Operation) (s : Step)
    (e : Error) (hb : (op.Begin app).2 = none) (hs : s ∈ (op.run app ctx).trace)
    (he : s.err = some e) :
    (op.run app ctx).err = some e
    ∧ (∃ pre : List Step,
        (op.run app ctx).trace
          = ⟨.Begin, none⟩ :: pre ++ [s, ⟨.CommitOrRollback (op.Begin app).1, none⟩]
        ∧ ∀ t ∈ pre, t.err = none)
    ∧ (∀ t ∈ (op.run app ctx).trace, t.callee.isMapper = false)
    ∧ (s.callee.isHasher = true →
        ∀ t ∈ (op.run app ctx).trace, t.callee.isRepository = false)
    ∧ (s.callee.isRepository = true →
        ∀ t ∈ (op.run app ctx).trace, t.callee.isVerifier = false)
    ∧ ((∀ email password, op ≠ .LoginCustomer email password) →
        (op.run app ctx).response = op.zero)
    ∧ (∀ email password, op = .LoginCustomer email password →
        (op.run app ctx).response
          = .LoginCustomer
              (app.Customer.Repository.LoginCustomer ctx (op.Begin app).1 email).1
              (s.callee.isVerifier &&
                (app.env.CheckPasswordHash
                  (app.Customer.Repository.LoginCustomer ctx (op.Begin app).1 email).2.1
                  password).1)) := by
  refine ⟨?_, ⟨(op.run app ctx).trace.tail.dropLast.dropLast, ?_, ?_⟩, ?_, ?_, ?_, ?_, ?_⟩ <;>
  cases op <;>
    simp only [Operation.Begin] at hb ⊢ <;>
    simp only [Operation.run, Run.relabel, RegisterCustomer, LoginCustomer,
      UpdateCustomer, DeleteCustomer, AddProduct, GetProduct, FindById, UpdateProduct,
      DeleteProduct, hb, Frame.ret, Frame.call, Frame.enter, Frame.defer] at hs ⊢ <;>
    (repeat' split at hs) <;>
    simp only [List.nil_append, List.map_cons, List.map_nil, List.cons_append,
      List.mem_cons, List.mem_singleton, List.not_mem_nil, or_false] at hs <;>
    casesm* _ ∨ _ <;>
    subst_vars <;>
    simp_all [Callee.isMapper, Callee.isHasher, Callee.isRepository, Callee.isVerifier,
      Operation.zero]

/-- Claim C3 (amended), evaluated: `RegisterCustomer` when the connection is lost after
`Begin`; the insert fails, its error is returned with the zero-value response. -/
theorem failure_short_circuits_witness :
    (Operation.Begin Fixture.appBroken (.RegisterCustomer ⟨"a@x.com", "A", "secret123"⟩)).2
      = none
    ∧ (Operation.run Fixture.appBroken Fixture.ctx
        (.RegisterCustomer ⟨"a@x.com", "A", "secret123"⟩)).err = some Fixture.errBadConn
    ∧ (Operation.run Fixture.appBroken Fixture.ctx
        (.RegisterCustomer ⟨"a@x.com", "A", "secret123"⟩)).response
      = .RegisterCustomer ⟨"", "", ⟨-62135596800, 0⟩⟩ :=
  have h := failure_short_circuits Fixture.appBroken Fixture.ctx
    (.RegisterCustomer ⟨"a@x.com", "A", "secret123"⟩)
    ⟨.RepositoryRegisterCustomer Fixture.tx
      ⟨⟨42⟩, "a@x.com", "A", "$2a$secret123", 1700000000, 0⟩, some Fixture.errBadConn⟩
    Fixture.errBadConn rfl (by decide) rfl
  ⟨rfl, h.1, h.2.2.2.2.2.1 (fun _ _ hne => Operation.noConfusion hne)⟩

/-- Claim C4.  In every operation and every run in which `Begin` succeeds, the trace is
`Begin`, then the business calls, none of which is the finaliser, then one call of
`helper.CommitOrRollback` on the handle that `Begin` returned: the finaliser runs
exactly once, last, on every exit path. -/
theorem finaliser_runs_exactly_once (app : App) (ctx : Context) (op : Operation)
    (hb : (op.Begin app).2 = none) :
    (∃ business : List Step,
      (op.run app ctx).trace
        = ⟨.Begin, none⟩ :: business ++ [⟨.CommitOrRollback (op.Begin app).1, none⟩]
      ∧ ∀ s ∈ business, s.callee.isFinaliser = false ∧ s.callee ≠ .Begin)
    ∧ (op.run app ctx).trace.filter (fun s => s.callee.isFinaliser)
        = [⟨.CommitOrRollback (op.Begin app).1, none⟩]
    ∧ (op.run app ctx).trace.getLast?
        = some ⟨.CommitOrRollback (op.Begin app).1, none⟩ := by
  obtain ⟨h1, h2⟩ := run_trace_shape app ctx op hb
  have hnil : List.filter (fun s => s.callee.isFinaliser)
      (op.run app ctx).trace.tail.dropLast = [] := by
    rw [List.filter_eq_nil_iff]
    intro s hs
    simp [(h2 s hs).1]
  refine ⟨⟨_, h1, h2⟩, ?_, ?_⟩
  · rw [h1, List.filter_append, List.filter_cons, hnil]
    simp [Callee.isFinaliser]
  · rw [h1, List.getLast?_append]
    simp

/-- Claim C4, evaluated: `DeleteCustomer` when the connection is lost after `Begin`. -/
theorem finaliser_runs_exactly_once_witness :
    (Operation.Begin Fixture.appBroken (.DeleteCustomer "a@x.com")).2 = none
    ∧ (Operation.run Fixture.appBroken Fixture.ctx (.DeleteCustomer "a@x.com")).trace.filter
        (fun s => s.callee.isFinaliser)
      = [⟨.CommitOrRollback Fixture.tx, none⟩] :=
  ⟨rfl, (finaliser_runs_exactly_once Fixture.appBroken Fixture.ctx (.DeleteCustomer "a@x.com")
    rfl).2.1⟩

/-- Claim C5.  When `Begin`, the hashing and the insert succeed, `RegisterCustomer` over
the repository implementation returns the nil error and the response made of the email
and the name of the request and of the registration timestamp captured from the clock
(the reading stored in the `int32` field of the entity, equal to the reading itself
when it fits the type); the response is this triple and so carries neither the
password nor its hash. -/
theorem register_round_trip (store : sql.Store) (db : sql.DB) (env : Env) (ctx : Context)
    (request : request.CustomerRegister) (tx : Tx) (hash : String)
    (hb : db.Begin = (tx, none))
    (hh : env.HashPassword request.Password = (hash, none))
    (hi : store.ExecContext tx ctx repository.CustomerRepositoryImpl.registerQuery
      [.uuid env.NewUUID, .text request.Email, .text request.Name, .text hash,
        .int32 (int32 env.Now)] = none) :
    (RegisterCustomer ⟨repository.NewCustomerRepositoryImpl store, db⟩ env ctx request).err
      = none
    ∧ (RegisterCustomer ⟨repository.NewCustomerRepositoryImpl store, db⟩ env ctx
        request).response
      = { Email := request.Email
          Name := request.Name
          RegisteredAt := time.Unix (int64 (int32 env.Now)) 0 }
    ∧ (RegisterCustomer ⟨repository.NewCustomerRepositoryImpl store, db⟩ env ctx
        request).response.RegisteredAt.Unix = int32 env.Now
    ∧ (-2147483648 ≤ env.Now ∧ env.Now < 2147483648 →
        (RegisterCustomer ⟨repository.NewCustomerRepositoryImpl store, db⟩ env ctx
          request).response.RegisteredAt.Unix = env.Now) := by
  have h : (RegisterCustomer ⟨repository.NewCustomerRepositoryImpl store, db⟩ env ctx
        request).response
      = { Email := request.Email
          Name := request.Name
          RegisteredAt := time.Unix (int64 (int32 env.Now)) 0 } := by
    simp [RegisterCustomer, hb, hh, hi, Frame.ret, Frame.call, Frame.enter, Frame.defer,
      repository.NewCustomerRepositoryImpl, repository.CustomerRepositoryImpl.RegisterCustomer,
      helper.ToResponseCustomerRegister]
  refine ⟨?_, h, ?_, ?_⟩
  · simp [RegisterCustomer, hb, hh, hi, Frame.ret, Frame.call, Frame.enter, Frame.defer,
      repository.NewCustomerRepositoryImpl, repository.CustomerRepositoryImpl.RegisterCustomer]
  · rw [h]
    simp only
    rw [int64_of_int32, unix_of_time_unix]
  · intro hr
    rw [h]
    simp only
    rw [int64_of_int32, unix_of_time_unix]
    exact (int32_eq_self_iff _).2 hr

/-- Claim C5, evaluated at the email `a@x.com`, the name `A` and the password `secret123`,
the clock reading 1700000000. -/
theorem register_round_trip_witness :
    (RegisterCustomer ⟨repository.NewCustomerRepositoryImpl Fixture.store, ⟨(Fixture.tx, none)⟩⟩
        Fixture.env Fixture.ctx ⟨"a@x.com", "A", "secret123"⟩).response
      = { Email := "a@x.com", Name := "A", RegisteredAt := ⟨1700000000, 0⟩ } := by
  rw [(register_round_trip Fixture.store ⟨(Fixture.tx, none)⟩ Fixture.env Fixture.ctx
    ⟨"a@x.com", "A", "secret123"⟩ Fixture.tx "$2a$secret123" rfl rfl rfl).2.1]
  decide

/-- Claim C6.  When `Begin` succeeds and the repository returns the products `responses`
with the nil error, `GetProduct` returns the nil error and the sequence that has, at
each position, the `Id`, `Name` and `Price` of the product at that position: same
length, same order, and empty when `responses` is empty. -/
theorem get_product_maps_each (usecase : ProductUsecaseImpl) (env : Env) (ctx : Context)
    (tx : Tx) (responses : List entity.Product)
    (hb : usecase.Db.Begin = (tx, none))
    (hr : usecase.Repository.GetProduct ctx tx = (responses, none)) :
    (usecase.GetProduct env ctx).err = none
    ∧ (usecase.GetProduct env ctx).response
        = responses.map (fun product => ⟨product.Id, product.Name, product.Price⟩)
    ∧ (usecase.GetProduct env ctx).response.length = responses.length
    ∧ (∀ i : Nat, (usecase.GetProduct env ctx).response[i]?
        = responses[i]?.map (fun product => ⟨product.Id, product.Name, product.Price⟩))
    ∧ (responses = [] → (usecase.GetProduct env ctx).response = []) := by
  have h : (usecase.GetProduct env ctx).response
        = responses.map (fun product => ⟨product.Id, product.Name, product.Price⟩) := by
    simp [GetProduct, hb, hr, Frame.ret, Frame.call, Frame.enter, Frame.defer,
      foldl_append_singleton
        (fun product : entity.Product =>
          (⟨product.Id, product.Name, product.Price⟩ : response.GetProduct))]
  refine ⟨?_, h, ?_, ?_, ?_⟩
  · simp [GetProduct, hb, hr, Frame.ret, Frame.call, Frame.enter, Frame.defer]
  · rw [h, List.length_map]
  · intro i
    rw [h, List.getElem?_map]
  · intro he
    rw [h, he]
    rfl

/-- Claim C6, evaluated on a store with two products. -/
theorem get_product_maps_each_witness :
    (Fixture.productUsecase.GetProduct Fixture.env Fixture.ctx).response
      = [⟨1, "pen", ⟨1999⟩⟩, ⟨2, "ink", ⟨500⟩⟩] :=
  (get_product_maps_each Fixture.productUsecase Fixture.env Fixture.ctx Fixture.tx
    Fixture.products rfl rfl).2.1

/-- Claim C7.  When the query of the repository `LoginCustomer` executes without error:
if it yields no row, the repository returns the zero id, the empty hash and the nil
error; if it yields a row whose scan succeeds, the repository returns the id and the
hash scanned from that row, with the nil error. -/
theorem repository_login_rows (store : sql.Store) (ctx : Context) (tx : Tx) (email : String)
    (rows : sql.Rows)
    (hq : store.QueryContext tx ctx repository.CustomerRepositoryImpl.loginQuery [.text email]
      = (rows, none)) :
    (rows.Next = false →
      repository.CustomerRepositoryImpl.LoginCustomer store ctx tx email = (default, "", none))
    ∧ (∀ (r : sql.Row) (rest : List sql.Row) (id : UUID) (passwordHashed : String),
        rows.pending = r :: rest →
        store.ScanIdPassword r (default, "") = ((id, passwordHashed), none) →
        repository.CustomerRepositoryImpl.LoginCustomer store ctx tx email
          = (id, passwordHashed, none)) := by
  constructor
  · intro hn
    have hp : rows.pending = [] := by
      cases hrows : rows.pending with
      | nil => rfl
      | cons a l => simp [sql.Rows.Next, hrows] at hn
    simp [repository.CustomerRepositoryImpl.LoginCustomer, hq, hp]
  · intro r rest id passwordHashed hp hscan
    simp [repository.CustomerRepositoryImpl.LoginCustomer, hq, hp, hscan]

/-- Claim C7, evaluated at an email without a row and at the email `a@x.com`. -/
theorem repository_login_rows_witness :
    repository.CustomerRepositoryImpl.LoginCustomer Fixture.store Fixture.ctx Fixture.tx
        "nobody@x.com" = (default, "", none)
    ∧ repository.CustomerRepositoryImpl.LoginCustomer Fixture.store Fixture.ctx Fixture.tx
        "a@x.com" = (⟨7⟩, "$2a$secret123", none) :=
  ⟨(repository_login_rows Fixture.store Fixture.ctx Fixture.tx "nobody@x.com" ⟨[]⟩ rfl).1 rfl,
    (repository_login_rows Fixture.store Fixture.ctx Fixture.tx "a@x.com"
      ⟨[⟨[.uuid ⟨7⟩, .text "$2a$secret123"]⟩]⟩ rfl).2 _ _ _ _ rfl rfl⟩

/-- Claim C8.  In every operation, if `Begin` fails with the error `e`, the use-case
returns `e` and the zero-value response, and `Begin` is the only call it has made:
neither the repository, nor the hasher, nor the verifier, nor the finaliser is
called. -/
theorem begin_failure_aborts (app : App) (ctx : Context) (op : Operation) (e : Error)
    (hb : (op.Begin app).2 = some e) :
    op.run app ctx = ⟨[⟨.Begin, some e⟩], op.zero, some e⟩ := by
  cases op <;>
    simp only [Operation.Begin] at hb <;>
    simp [Operation.run, Operation.zero, Run.relabel, RegisterCustomer, LoginCustomer,
      UpdateCustomer, DeleteCustomer, AddProduct, GetProduct, FindById, UpdateProduct,
      DeleteProduct, hb, Frame.ret, Frame.call, Frame.enter]

/-- Claim C8, evaluated: `RegisterCustomer` on a closed store. -/
theorem begin_failure_aborts_witness :
    (Operation.Begin Fixture.appClosed (.RegisterCustomer ⟨"a@x.com", "A", "secret123"⟩)).2
      = some Fixture.errClosed
    ∧ Operation.run Fixture.appClosed Fixture.ctx
        (.RegisterCustomer ⟨"a@x.com", "A", "secret123"⟩)
      = ⟨[⟨.Begin, some Fixture.errClosed⟩],
          .RegisterCustomer ⟨"", "", ⟨-62135596800, 0⟩⟩, some Fixture.errClosed⟩ :=
  ⟨rfl, begin_failure_aborts Fixture.appClosed Fixture.ctx
    (.RegisterCustomer ⟨"a@x.com", "A", "secret123"⟩) Fixture.errClosed rfl⟩

/-- Claim C9 (what the code does).  When `Begin`, the update and the re-read succeed,
`UpdateCustomer` over the repository implementation returns the nil error and a
response whose `Name`, `RegisteredAt` and `UpdatedAt` are the values re-read from the
row, and whose `Email` is the empty string, whatever the email of the request: the
repository never fills the `Email` of the customer it returns. -/
theorem update_customer_response (store : sql.Store) (db : sql.DB) (env : Env) (ctx : Context)
    (request : request.CustomerUpdate) (tx : Tx) (name : String) (registeredAt updatedAt : Int)
    (hb : db.Begin = (tx, none))
    (hu : store.ExecContext tx ctx repository.CustomerRepositoryImpl.updateQuery
      [.text request.Name, .int32 (int32 env.Now), .text request.Email] = none)
    (hs : (store.QueryRowContext tx ctx repository.CustomerRepositoryImpl.updateQueryResult
        [.text request.Email]).ScanNameTimes store ("", 0, 0)
      = ((name, registeredAt, updatedAt), none)) :
    (UpdateCustomer ⟨repository.NewCustomerRepositoryImpl store, db⟩ env ctx request).err = none
    ∧ (UpdateCustomer ⟨repository.NewCustomerRepositoryImpl store, db⟩ env ctx request).response
      = { Email := ""
          Name := name
          RegisteredAt := time.Unix (int64 registeredAt) 0
          UpdatedAt := time.Unix (int64 updatedAt) 0 } := by
  have hs' : (store.QueryRowContext tx ctx repository.CustomerRepositoryImpl.updateQueryResult
        [.text request.Email]).ScanNameTimes store
        ((default : entity.Customer).Name, (default : entity.Customer).RegisteredAt,
          (default : entity.Customer).UpdatedAt)
      = ((name, registeredAt, updatedAt), none) := hs
  have hrepo : ∀ customer : entity.Customer, customer.Name = request.Name →
      customer.UpdatedAt = int32 env.Now → customer.Email = request.Email →
      repository.CustomerRepositoryImpl.UpdateCustomer store ctx tx customer
        = ({ (default : entity.Customer) with
              Name := name, RegisteredAt := registeredAt, UpdatedAt := updatedAt }, none) := by
    intro customer h1 h2 h3
    simp only [repository.CustomerRepositoryImpl.UpdateCustomer, h1, h2, h3, hu, hs']
  constructor <;>
  simp [UpdateCustomer, hb, hrepo, Frame.ret, Frame.call, Frame.enter, Frame.defer,
      repository.NewCustomerRepositoryImpl, helper.ToResponseCustomerUpdate, default]

/-- Claim C9, evaluated at the email `a@x.com`: the response has the empty email. -/
theorem update_customer_response_witness :
    (UpdateCustomer ⟨repository.NewCustomerRepositoryImpl Fixture.store, ⟨(Fixture.tx, none)⟩⟩
        Fixture.env Fixture.ctx ⟨"a@x.com", "A2"⟩).err = none
    ∧ (UpdateCustomer ⟨repository.NewCustomerRepositoryImpl Fixture.store, ⟨(Fixture.tx, none)⟩⟩
        Fixture.env Fixture.ctx ⟨"a@x.com", "A2"⟩).response
      = { Email := "", Name := "A", RegisteredAt := ⟨1600000000, 0⟩,
          UpdatedAt := ⟨1700000000, 0⟩ }
    ∧ (UpdateCustomer ⟨repository.NewCustomerRepositoryImpl Fixture.store, ⟨(Fixture.tx, none)⟩⟩
        Fixture.env Fixture.ctx ⟨"a@x.com", "A2"⟩).response.Email ≠ "a@x.com" := by
  have h := update_customer_response Fixture.store ⟨(Fixture.tx, none)⟩ Fixture.env Fixture.ctx
    ⟨"a@x.com", "A2"⟩ Fixture.tx "A" 1600000000 1700000000 rfl rfl rfl
  refine ⟨h.1, ?_, ?_⟩
  · rw [h.2]; decide
  · rw [h.2]; decide

/-- Claim C10 (as stated, refuted for `AddProduct`).  The clock reads 1700000000, which
fits 32 bits, and `AddProduct` hands the repository an entity whose `CreatedAt` is
1700000000; the product repository succeeds and hands back only the id of the new row;
the response timestamp is the calendar time of the `CreatedAt` handed back, 0, and not
the clock reading. -/
theorem add_product_timestamp_counterexample :
    Fixture.env.Now = 1700000000
    ∧ (⟨.RepositoryAddProduct Fixture.tx
          { Id := 0, IdSeller := ⟨5⟩, Name := "pen", Price := ⟨1999⟩, Quantity := ⟨3⟩,
            CreatedAt := 1700000000, UpdatedAt := 0 }, none⟩ : Step)
        ∈ (Fixture.idOnlyProductUsecase.AddProduct Fixture.env Fixture.ctx
            ⟨⟨5⟩, "pen", ⟨1999⟩, ⟨3⟩⟩).trace
    ∧ (Fixture.idOnlyProductUsecase.AddProduct Fixture.env Fixture.ctx
        ⟨⟨5⟩, "pen", ⟨1999⟩, ⟨3⟩⟩).err = none
    ∧ (Fixture.idOnlyProductUsecase.AddProduct Fixture.env Fixture.ctx
        ⟨⟨5⟩, "pen", ⟨1999⟩, ⟨3⟩⟩).response.CreatedAt.Unix = 0
    ∧ (Fixture.idOnlyProductUsecase.AddProduct Fixture.env Fixture.ctx
        ⟨⟨5⟩, "pen", ⟨1999⟩, ⟨3⟩⟩).response.CreatedAt.Unix ≠ 1700000000 := by
  decide

/-- Claim C10 (amended).  For every clock reading `t`: the conversion to `int32` yields
the value of the type congruent to `t` modulo `2^32`; every timestamp a use-case hands
to the repository is that value, and each of the six operations that read the clock
does hand it over once `Begin` (and, in `RegisterCustomer`, the hashing) has succeeded;
the calendar time the mapper makes of an entity has the 32-bit timestamp of the entity
as its epoch seconds; hence the response timestamp of a successful `RegisterCustomer`
over the repository implementation equals `t` exactly when `-2^31 ≤ t < 2^31`, while
the response timestamp of a successful `AddProduct` is the calendar time of the
`CreatedAt` the product repository hands back, and equals `t` exactly when
`-2^31 ≤ t < 2^31` if that is the `CreatedAt` the repository was given. -/
theorem timestamp_is_clock_reduced_to_int32 (t : Int) :
    (-2147483648 ≤ int32 t ∧ int32 t < 2147483648 ∧ (t - int32 t) % 4294967296 = 0)
    ∧ (∀ (app : App) (ctx : Context) (op : Operation) (s : Step) (stamp : Int),
        app.env.Now = t → s ∈ (op.run app ctx).trace → s.callee.timestamp = some stamp →
        stamp = int32 t)
    ∧ (∀ (app : App) (ctx : Context) (op : Operation),
        app.env.Now = t → op.capturesClock = true → (op.Begin app).2 = none →
        (∀ request, op = .RegisterCustomer request →
          (app.env.HashPassword request.Password).2 = none) →
        ∃ s ∈ (op.run app ctx).trace,
          s.callee.isRepository = true ∧ s.callee.timestamp = some (int32 t))
    ∧ (∀ customer : entity.Customer, customer.RegisteredAt = int32 t →
        (helper.ToResponseCustomerRegister customer).RegisteredAt.Unix = int32 t)
    ∧ (∀ product : entity.Product, product.CreatedAt = int32 t →
        (helper.ToResponseAddProduct product).CreatedAt.Unix = int32 t)
    ∧ (∀ (store : sql.Store) (db : sql.DB) (env : Env) (ctx : Context)
        (request : request.CustomerRegister),
        env.Now = t →
        (RegisterCustomer ⟨repository.NewCustomerRepositoryImpl store, db⟩ env ctx request).err
          = none →
        ((RegisterCustomer ⟨repository.NewCustomerRepositoryImpl store, db⟩ env ctx
            request).response.RegisteredAt.Unix = t
          ↔ -2147483648 ≤ t ∧ t < 2147483648))
    ∧ (∀ (usecase : ProductUsecaseImpl) (env : Env) (ctx : Context)
        (request : request.AddProduct) (stored : entity.Product),
        env.Now = t →
        (usecase.AddProduct env ctx request).err = none →
        stored = (usecase.Repository.AddProduct ctx usecase.Db.Begin.1
          { Id := 0, IdSeller := request.IdSeller, Name := request.Name,
            Price := request.Price, Quantity := request.Quantity,
            CreatedAt := int32 t, UpdatedAt := 0 }).1 →
        (usecase.AddProduct env ctx request).response.CreatedAt
            = time.Unix (int64 stored.CreatedAt) 0
          ∧ (stored.CreatedAt = int32 t →
              ((usecase.AddProduct env ctx request).response.CreatedAt.Unix = t
                ↔ -2147483648 ≤ t ∧ t < 2147483648))) := by
  refine ⟨⟨(int32_range t).1, (int32_range t).2, int32_congr t⟩, ?_, ?_, ?_, ?_, ?_, ?_⟩
  · intro app ctx op s stamp hn hs hst
    subst hn
    cases op <;>
      simp only [Operation.run, Run.relabel, RegisterCustomer, LoginCustomer,
        UpdateCustomer, DeleteCustomer, AddProduct, GetProduct, FindById, UpdateProduct,
        DeleteProduct, Frame.ret, Frame.call, Frame.enter, Frame.defer] at hs <;>
      (repeat' split at hs) <;>
      simp only [List.nil_append, List.map_cons, List.map_nil, List.cons_append,
        List.mem_cons, List.mem_singleton, List.not_mem_nil, or_false] at hs <;>
      (try casesm* _ ∨ _) <;>
      subst_vars <;>
      simp_all [Callee.timestamp]
  · intro app ctx op hn hc hb hh
    subst hn
    cases op with
    | RegisterCustomer request =>
      have h1 := hh request rfl
      simp only [Operation.Begin] at hb
      simp only [Operation.run, Run.relabel, RegisterCustomer, hb, h1, Frame.ret,
        Frame.call, Frame.enter, Frame.defer]
      (repeat' split) <;> simp [Callee.timestamp, Callee.isRepository]
    | _ =>
      first
      | (simp [Operation.capturesClock] at hc; done)
      | (simp only [Operation.Begin] at hb
         simp only [Operation.run, Run.relabel, UpdateCustomer, DeleteCustomer, AddProduct,
           UpdateProduct, DeleteProduct, hb, Frame.ret, Frame.call, Frame.enter, Frame.defer]
         (repeat' split) <;> simp [Callee.timestamp, Callee.isRepository])
  · intro customer hc
    simp only [helper.ToResponseCustomerRegister]
    rw [hc, int64_of_int32, unix_of_time_unix]
  · intro product hp
    simp only [helper.ToResponseAddProduct]
    rw [hp, int64_of_int32, unix_of_time_unix]
  · intro store db env ctx request hn herr
    subst hn
    have h : (RegisterCustomer ⟨repository.NewCustomerRepositoryImpl store, db⟩ env ctx
        request).response.RegisteredAt.Unix = int32 env.Now := by
      revert herr
      simp only [RegisterCustomer, Frame.ret, Frame.call, Frame.enter, Frame.defer,
        repository.NewCustomerRepositoryImpl,
        repository.CustomerRepositoryImpl.RegisterCustomer]
      repeat' split
      all_goals simp_all [helper.ToResponseCustomerRegister, int64_of_int32, unix_of_time_unix]
    rw [h]
    exact int32_eq_self_iff _
  · intro usecase env ctx request stored hn herr hst
    subst hn
    have h : (usecase.AddProduct env ctx request).response.CreatedAt
        = time.Unix (int64 stored.CreatedAt) 0 := by
      revert herr
      subst hst
      simp only [AddProduct, Frame.ret, Frame.call, Frame.enter, Frame.defer]
      repeat' split
      all_goals simp_all [helper.ToResponseAddProduct, default]
    refine ⟨h, ?_⟩
    intro hecho
    rw [h, hecho, int64_of_int32, unix_of_time_unix]
    exact int32_eq_self_iff _

/-- Claim C10 (amended), evaluated at the readings 1700000000 and `2^31`. -/
theorem timestamp_is_clock_reduced_to_int32_witness :
    int32 1700000000 = 1700000000
    ∧ int32 2147483648 = -2147483648
    ∧ (RegisterCustomer ⟨repository.NewCustomerRepositoryImpl Fixture.store, ⟨(Fixture.tx, none)⟩⟩
        (Fixture.envAt 2147483648) Fixture.ctx
        ⟨"a@x.com", "A", "secret123"⟩).response.RegisteredAt.Unix ≠ 2147483648
    ∧ (Fixture.productUsecase.AddProduct (Fixture.envAt 1700000000) Fixture.ctx
        ⟨⟨5⟩, "pen", ⟨1999⟩, ⟨3⟩⟩).response.CreatedAt.Unix = 1700000000
    ∧ (∃ s ∈ (Operation.run Fixture.app Fixture.ctx
          (.UpdateProduct ⟨1, "pen", ⟨1999⟩, ⟨3⟩⟩)).trace,
        s.callee.isRepository = true ∧ s.callee.timestamp = some (int32 1700000000)) :=
  ⟨by decide, by decide,
    fun h => absurd
      (((timestamp_is_clock_reduced_to_int32 2147483648).2.2.2.2.2.1 Fixture.store
        ⟨(Fixture.tx, none)⟩ (Fixture.envAt 2147483648) Fixture.ctx
        ⟨"a@x.com", "A", "secret123"⟩ rfl (by decide)).1 h).2 (by decide),
    (((timestamp_is_clock_reduced_to_int32 1700000000).2.2.2.2.2.2 Fixture.productUsecase
      (Fixture.envAt 1700000000) Fixture.ctx ⟨⟨5⟩, "pen", ⟨1999⟩, ⟨3⟩⟩ _ rfl
      (by decide) rfl).2 (by decide)).2 (by decide),
    (timestamp_is_clock_reduced_to_int32 1700000000).2.2.1 Fixture.app Fixture.ctx
      (.UpdateProduct ⟨1, "pen", ⟨1999⟩, ⟨3⟩⟩) rfl rfl rfl
      (fun _ h => Operation.noConfusion h)⟩

end Mastermind
